import Mathlib

/-!
# Verification of the as_built core scan pipeline

A shallow embedding, in Lean 4, of the core subsystems of the `as_built`
repository:

* the file Filter Policy and Directory Collector (`src/lib/scan/filter.ts`,
  `src/lib/scan/collect.ts`),
* the LLM output parser (`src/lib/scan/parse-output.ts`),
* the prompt assembler's output-structure instructions (`src/lib/scan/prompt.ts`),
* the retry orchestrator and scan-status computation (`src/lib/scan/process.ts`),
* the LLM error taxonomy (`src/lib/llm/provider.ts`).

Strings manipulated character-by-character are embedded as `List Char`
(abbreviated `Str`); JavaScript's `String.prototype.indexOf` is embedded as
`firstIdx` and `trim` as `jsTrim`.  File-system side effects are embedded as
a pure walk over an explicit directory-tree value.  Behaviors of external
libraries that the repository does not determine are abstracted as
parameters: the `ignore` npm package as a matcher `Option (String → Bool)`,
and `String.prototype.localeCompare` — whose default-locale (ICU) collation
is environment data — as a path comparator `pathLe : String → String → Bool`
(`collectFilesWith`); `lexLe` is byte-wise code-point order, the order of the
default `Array.prototype.sort()` used for the `tree` list.
-/

namespace AsBuilt

abbrev Str := List Char

-- ─── Generic string machinery ───────────────────────────────────────────────

/-- First index at which `pat` occurs in `text` (as `List.isPrefixOf` of the
corresponding suffix); embeds JavaScript `text.indexOf(pat)`, which returns the
least such index or `-1` (here `none`). -/
def firstIdx (pat : Str) : Str → Option Nat
  | [] => if pat.isPrefixOf [] then some 0 else none
  | c :: rest =>
    if pat.isPrefixOf (c :: rest) then some 0
    else (firstIdx pat rest).map (· + 1)

/-- JavaScript regex `\s` / `String.prototype.trim` whitespace characters
(ASCII whitespace plus NBSP, BOM, LS, PS). -/
def isJsWs (c : Char) : Bool :=
  c = ' ' || c = '\t' || c = '\n' || c = '\r' ||
  c.toNat = 11 || c.toNat = 12 || c.toNat = 160 ||
  c.toNat = 0xfeff || c.toNat = 0x2028 || c.toNat = 0x2029

/-- Remove trailing JS whitespace. -/
def trimEnd (l : Str) : Str :=
  (l.reverse.dropWhile isJsWs).reverse

/-- JavaScript `String.prototype.trim`. -/
def jsTrim (l : Str) : Str :=
  trimEnd (l.dropWhile isJsWs)

/-- Byte-wise (code-point) lexicographic `≤` on character lists: the string
order of JavaScript's comparator-less `Array.prototype.sort()` (used for the
collector's `tree.sort()`).  It is *not* the default-locale `localeCompare`
collation, which on mixed-case names can disagree with it (see
`icuDefaultLe` and claim C9). -/
def lexLe : Str → Str → Bool
  | [], _ => true
  | _ :: _, [] => false
  | c :: cs, d :: ds =>
    if c.toNat < d.toNat then true
    else if d.toNat < c.toNat then false
    else lexLe cs ds

/-- Last `/`-separated component of a path; embeds Node's
`path.basename` for the slash-normalized, non-slash-terminated relative paths
produced by the collector. -/
def lastComp : Str → Str → Str
  | [], acc => acc.reverse
  | c :: rest, acc => if c = '/' then lastComp rest [] else lastComp rest (c :: acc)

def basenameStr (p : String) : String :=
  ⟨lastComp p.data []⟩

/-- Index of the last `.` in a list, if any. -/
def lastDotIdx : Str → Nat → Option Nat → Option Nat
  | [], _, acc => acc
  | c :: rest, i, acc => lastDotIdx rest (i + 1) (if c = '.' then some i else acc)

/-- Node's `path.extname` applied to a basename: the suffix from the last `.`,
or `""` when there is no `.` or the only `.` is the leading character
(dotfiles such as `.env` have no extension). -/
def extnameStr (b : String) : String :=
  match lastDotIdx b.data 0 none with
  | none => ""
  | some 0 => ""
  | some i => ⟨b.data.drop i⟩

/-- ASCII lowercasing; embeds `String.prototype.toLowerCase` on the ASCII
extensions this codebase inspects. -/
def lowerStr (s : String) : String :=
  ⟨s.data.map Char.toLower⟩

/-- JavaScript `String.prototype.startsWith`. -/
def jsStartsWith (s pre : String) : Bool :=
  pre.data.isPrefixOf s.data

/-- JavaScript `String.prototype.endsWith`. -/
def jsEndsWith (s suf : String) : Bool :=
  suf.data.isSuffixOf s.data

/-- JS dot-star regex `^pre.*suf$` (with `.` not matching a newline). -/
def dotStarMatch (pre suf path : String) : Bool :=
  jsStartsWith path pre && jsEndsWith path suf &&
  decide (pre.length + suf.length ≤ path.length) &&
  !(((path.data.drop pre.length).take (path.length - pre.length - suf.length)).contains '\n')

-- ─── Filter Policy (src/lib/scan/filter.ts) ─────────────────────────────────

def HARD_BLOCKED_NAMES : List String := [".env"]

def hardBlockedStart : String := ".env."

/-- `isHardBlocked` of filter.ts (lines 10–14). -/
def isHardBlocked (filename : String) : Bool :=
  HARD_BLOCKED_NAMES.contains filename || jsStartsWith filename hardBlockedStart

def EXCLUDED_DIRS : List String :=
  ["node_modules", "bower_components", ".pnp", ".yarn", "vendor",
   ".git", ".svn", ".hg", ".fossil",
   "dist", "build", "out", ".next", ".nuxt", ".output", ".svelte-kit",
   "target", "bin", "obj", "__pycache__", ".pytest_cache", ".mypy_cache",
   ".ruff_cache", "coverage", ".nyc_output", "htmlcov", ".tox",
   ".venv", "venv", "env", ".virtualenv", ".conda",
   ".idea", ".vscode", ".vs", ".settings",
   ".DS_Store",
   ".docker", ".terraform", ".serverless", ".vercel", ".firebase",
   "tmp", "temp", ".cache", ".parcel-cache", ".turbo"]

def EXCLUDED_EXTENSIONS : List String :=
  [".exe", ".dll", ".so", ".dylib", ".o", ".obj", ".a", ".lib", ".class",
   ".jar", ".war", ".ear", ".pyc", ".pyo", ".pyd", ".wasm",
   ".png", ".jpg", ".jpeg", ".gif", ".bmp", ".ico", ".webp", ".svg",
   ".mp4", ".avi", ".mov", ".wmv", ".flv", ".webm",
   ".mp3", ".wav", ".ogg", ".flac", ".aac",
   ".ttf", ".otf", ".woff", ".woff2", ".eot",
   ".zip", ".tar", ".gz", ".bz2", ".rar", ".7z", ".tgz",
   ".sqlite", ".sqlite3", ".db", ".mdb", ".accdb",
   ".map", ".min.js", ".min.css",
   ".pem", ".key", ".crt", ".cer", ".p12", ".pfx", ".jks",
   ".pdf", ".doc", ".docx", ".xls", ".xlsx", ".ppt", ".pptx",
   ".sketch", ".fig", ".psd", ".ai",
   ".log"]

def EXCLUDED_COMPOUND_EXTENSIONS : List String := [".js.map", ".css.map"]

def EXCLUDED_SUFFIXES : List String := [".bundle.js", ".chunk.js"]

def LOCK_FILES : List String :=
  ["package-lock.json", "yarn.lock", "pnpm-lock.yaml", "Pipfile.lock",
   "poetry.lock", "composer.lock", "Gemfile.lock", "Cargo.lock", "go.sum"]

def EXCLUDED_FILENAMES : List String :=
  [".eslintcache", ".stylelintcache", "Thumbs.db", "Desktop.ini",
   "ehthumbs.db", ".DS_Store", ".project", ".classpath"]

/-- `isEditorTempFile` of filter.ts (lines 196–202). -/
def isEditorTempFile (filename : String) : Bool :=
  jsEndsWith filename ".swp" || jsEndsWith filename ".swo" || jsEndsWith filename "~"

/-- `isEggInfoDir` of filter.ts (lines 206–208). -/
def isEggInfoDir (name : String) : Bool :=
  jsEndsWith name ".egg-info"

def LARGE_DATA_EXTENSIONS : List String := [".csv", ".xml"]

def CONFIG_JSON_NAMES : List String :=
  ["package.json", "tsconfig.json", "jsconfig.json", "composer.json",
   ".eslintrc.json", ".prettierrc.json", "firebase.json", "vercel.json"]

def SIZE_THRESHOLD : Nat := 1048576

def HIGH_SIGNAL_NAMES : List String :=
  ["package.json", "requirements.txt", "setup.py", "setup.cfg",
   "pyproject.toml", "Cargo.toml", "go.mod", "Gemfile", "composer.json",
   "build.gradle", "pom.xml", "CMakeLists.txt", "Makefile",
   "tsconfig.json", "jsconfig.json", "Dockerfile", "vercel.json",
   "netlify.toml", "fly.toml", "firebase.json", ".firebaserc",
   "README.md", "CHANGELOG.md", "CONTRIBUTING.md"]

def HIGH_SIGNAL_NAME_STARTS : List String :=
  ["next.config", "nuxt.config", "vite.config", "webpack.config",
   "tailwind.config", "postcss.config", ".eslintrc", ".prettierrc",
   "docker-compose", "drizzle.config"]

/-- `isHighSignal` of filter.ts (lines 273–285). -/
def isHighSignal (filename : String) (relativePath : String) : Bool :=
  HIGH_SIGNAL_NAMES.contains filename ||
  HIGH_SIGNAL_NAME_STARTS.any (fun pre => jsStartsWith filename pre) ||
  dotStarMatch ".github/workflows/" ".yml" relativePath ||
  relativePath = "prisma/schema.prisma" ||
  dotStarMatch "docs/" ".md" relativePath

structure FilterResult where
  included : Bool
  reason : Option String
  highSignal : Bool
deriving DecidableEq, Repr

/-- Subdirectory normalization from `createFileFilter` (filter.ts line 335):
strip leading/trailing slashes, an empty result meaning no scope. -/
def normalizeSubdir : Option String → Option String
  | none => none
  | some s =>
    let t : Str := (s.data.dropWhile (· = '/')).reverse.dropWhile (· = '/') |>.reverse
    if t.isEmpty then none else some ⟨t⟩

/-- The `check` closure of `createFileFilter` (filter.ts lines 345–474).
`gitignore` abstracts the loaded `ignore` matcher (`none` when the project has
no `.gitignore`); `subdir` is the already-normalized subdirectory scope. -/
def filterCheck (gitignore : Option (String → Bool)) (subdir : Option String)
    (relativePath : String) (sizeBytes : Nat) : FilterResult :=
  let filename := basenameStr relativePath
  let ext := lowerStr (extnameStr filename)
  -- 1. Hard block: .env files are NEVER allowed
  if isHardBlocked filename then
    { included := false, reason := some "hard-blocked (.env)", highSignal := false }
  -- 2. Subdirectory targeting
  else if (match subdir with
               | some sd => !(jsStartsWith relativePath (sd ++ "/")) && relativePath ≠ sd
               | none => false) then
    { included := false, reason := some "outside subdirectory", highSignal := false }
  -- 3. .gitignore check
  else if (match gitignore with
           | some matcher => matcher relativePath
           | none => false) then
    { included := false, reason := some ".gitignore", highSignal := false }
  -- 4. Lock files
  else if LOCK_FILES.contains filename then
    { included := false, reason := some "lock file", highSignal := false }
  -- 5. Excluded filenames
  else if EXCLUDED_FILENAMES.contains filename then
    { included := false, reason := some "excluded filename", highSignal := false }
  -- 6. Editor temp files
  else if isEditorTempFile filename then
    { included := false, reason := some "editor temp file", highSignal := false }
  -- 7. Compound extensions (.js.map, .css.map)
  else if EXCLUDED_COMPOUND_EXTENSIONS.any (fun ce => jsEndsWith filename ce) then
    { included := false, reason := some "excluded compound extension", highSignal := false }
  -- 8. Bundle/chunk suffixes
  else if EXCLUDED_SUFFIXES.any (fun suf => jsEndsWith filename suf) then
    { included := false, reason := some "excluded suffix", highSignal := false }
  -- 9. Excluded extensions
  else if EXCLUDED_EXTENSIONS.contains ext then
    { included := false, reason := some "excluded extension", highSignal := false }
  -- 10. Large data files (>1MB threshold)
  else if LARGE_DATA_EXTENSIONS.contains ext && decide (sizeBytes > SIZE_THRESHOLD) then
    { included := false, reason := some "data file over 1MB", highSignal := false }
  -- JSON: over 1MB excluded unless it is a config file
  else if ext = ".json" && decide (sizeBytes > SIZE_THRESHOLD) &&
          !(CONFIG_JSON_NAMES.contains filename) then
    { included := false, reason := some "JSON file over 1MB", highSignal := false }
  -- SQL: migration files included, dumps (>1MB) excluded
  else if ext = ".sql" && decide (sizeBytes > SIZE_THRESHOLD) then
    { included := false, reason := some "SQL file over 1MB", highSignal := false }
  -- 11. Default acceptance with high-signal classification
  else
    { included := true, reason := none, highSignal := isHighSignal filename relativePath }

/-- The `shouldEnterDirectory` closure of `createFileFilter`
(filter.ts lines 338–343). -/
def shouldEnterDirectory (dirName : String) : Bool :=
  !(EXCLUDED_DIRS.contains dirName) && !(isEggInfoDir dirName)


-- ─── Claim C8: the 1 MiB size gate ──────────────────────────────────────────

/-- C8: for every `.csv`, `.xml`, `.sql`, or `.json` file reaching the
size-gate step of the Filter Policy (i.e. excluded by none of steps 1–9), the
file is excluded exactly when its size strictly exceeds 1,048,576 bytes —
so a file of exactly 1 MiB is included — except that a `.json` file whose
basename is on the fixed configuration-JSON allow-list passes the size gate
regardless of size. -/
theorem C8_size_gate (gm : Option (String → Bool)) (sd : Option String)
    (p : String) (size : Nat)
    (hext : lowerStr (extnameStr (basenameStr p)) ∈ [".csv", ".xml", ".sql", ".json"])
    (h1 : isHardBlocked (basenameStr p) = false)
    (h2 : (match sd with
           | some s => !(jsStartsWith p (s ++ "/")) && p ≠ s
           | none => false) = false)
    (h3 : (match gm with | some m => m p | none => false) = false)
    (h4 : LOCK_FILES.contains (basenameStr p) = false)
    (h5 : EXCLUDED_FILENAMES.contains (basenameStr p) = false)
    (h6 : isEditorTempFile (basenameStr p) = false)
    (h7 : EXCLUDED_COMPOUND_EXTENSIONS.any (fun ce => jsEndsWith (basenameStr p) ce) = false)
    (h8 : EXCLUDED_SUFFIXES.any (fun suf => jsEndsWith (basenameStr p) suf) = false)
    (h9 : EXCLUDED_EXTENSIONS.contains (lowerStr (extnameStr (basenameStr p))) = false) :
    (filterCheck gm sd p size).included = false ↔
      (size > SIZE_THRESHOLD ∧
        ¬(lowerStr (extnameStr (basenameStr p)) = ".json" ∧
          CONFIG_JSON_NAMES.contains (basenameStr p) = true)) := by
  have hmem : lowerStr (extnameStr (basenameStr p)) = ".csv" ∨
      lowerStr (extnameStr (basenameStr p)) = ".xml" ∨
      lowerStr (extnameStr (basenameStr p)) = ".sql" ∨
      lowerStr (extnameStr (basenameStr p)) = ".json" := by
    simpa using hext
  unfold filterCheck
  rcases hmem with h | h | h | h <;>
    simp only [h, h1, h2, h3, h4, h5, h6, h7, h8, h9] <;>
    by_cases hs : size > SIZE_THRESHOLD <;>
    by_cases hc : CONFIG_JSON_NAMES.contains (basenameStr p) = true <;>
    simp_all [LARGE_DATA_EXTENSIONS]
  all_goals
    rw [if_neg (by omega)]
    simp
    omega

/-- Witness for C8 at the exact 1 MiB boundary: `data.csv` of exactly
1,048,576 bytes passes the size gate, at 1,048,577 bytes it is excluded, and
an oversized `package.json` is saved by the configuration-JSON allow-list. -/
theorem C8_size_gate_witness :
    ((filterCheck none none "data.csv" 1048576).included = false ↔
      (1048576 > SIZE_THRESHOLD ∧
        ¬(lowerStr (extnameStr (basenameStr "data.csv")) = ".json" ∧
          CONFIG_JSON_NAMES.contains (basenameStr "data.csv") = true))) ∧
    ((filterCheck none none "data.csv" 1048577).included = false ↔
      (1048577 > SIZE_THRESHOLD ∧
        ¬(lowerStr (extnameStr (basenameStr "data.csv")) = ".json" ∧
          CONFIG_JSON_NAMES.contains (basenameStr "data.csv") = true))) ∧
    (filterCheck none none "data.csv" 1048576).included = true ∧
    (filterCheck none none "data.csv" 1048577).included = false ∧
    (filterCheck none none "package.json" 5000000).included = true :=
  ⟨C8_size_gate none none "data.csv" 1048576 (by decide) (by decide) rfl rfl
      (by decide) (by decide) (by decide) (by decide) (by decide) (by decide),
   C8_size_gate none none "data.csv" 1048577 (by decide) (by decide) rfl rfl
      (by decide) (by decide) (by decide) (by decide) (by decide) (by decide),
   by decide, by decide, by decide⟩

-- ─── Directory Collector (src/lib/scan/collect.ts) ──────────────────────────

structure CollectedFile where
  relativePath : String
  content : Str
  sizeBytes : Nat
  highSignal : Bool
deriving DecidableEq, Repr

structure CollectionResult where
  files : List CollectedFile
  tree : List String
  excludedCount : Nat
  totalSizeBytes : Nat
deriving DecidableEq, Repr

/-- A materialized directory tree: the embedding of the file system the
collector walks.  `readdir` order is the list order; `stat`/`readFile` are
embedded as total reads of the stored size and (UTF-8 decoded) content. -/
inductive FsEntry where
  | file (name : String) (size : Nat) (content : Str)
  | dir (name : String) (entries : List FsEntry)

/-- Intermediate accumulator of `walkDirectory` (its three mutated outputs). -/
structure WalkAcc where
  files : List CollectedFile
  tree : List String
  excluded : Nat
deriving DecidableEq

def accAppend (a b : WalkAcc) : WalkAcc :=
  ⟨a.files ++ b.files, a.tree ++ b.tree, a.excluded + b.excluded⟩

/-- `relative(projectRoot, fullPath)` with forward slashes: the child's
root-relative path. -/
def childRel (parentRel name : String) : String :=
  if parentRel = "" then name else parentRel ++ "/" ++ name

mutual

/-- The loop body of `walkDirectory` of collect.ts (lines 54–102) for one
directory entry.  A file is listed in `tree`, then checked against the filter
(excluded files only count), then dropped as binary when its first 8192
characters contain a NUL (collect.ts line 86), and otherwise collected.
Pruned directories contribute nothing at all. -/
def walkEntry (chk : String → Nat → FilterResult) (parentRel : String) :
    FsEntry → WalkAcc
  | .file name size content =>
    let relPath := childRel parentRel name
    let r := chk relPath size
    if !r.included then ⟨[], [relPath], 1⟩
    else if (content.take 8192).contains (Char.ofNat 0) then ⟨[], [relPath], 1⟩
    else ⟨[⟨relPath, content, size, r.highSignal⟩], [relPath], 0⟩
  | .dir name entries =>
    if shouldEnterDirectory name then
      accAppend ⟨[], [childRel parentRel name ++ "/"], 0⟩
        (walkEntries chk (childRel parentRel name) entries)
    else ⟨[], [], 0⟩

def walkEntries (chk : String → Nat → FilterResult) (parentRel : String) :
    List FsEntry → WalkAcc
  | [] => ⟨[], [], 0⟩
  | e :: rest => accAppend (walkEntry chk parentRel e) (walkEntries chk parentRel rest)

end

/-- The comparator of collect.ts lines 127–131 as a `≤`-style Boolean
relation: high-signal files first, then by relative path according to
`pathLe`.  `pathLe` abstracts `a.relativePath.localeCompare(b.relativePath)`
(line 130): the default-locale collation is external ICU behavior the
repository does not determine, so — like the `ignore` matcher — it is a
parameter of the embedding. -/
def fileLeWith (pathLe : String → String → Bool) (a b : CollectedFile) : Bool :=
  if a.highSignal && !b.highSignal then true
  else if !a.highSignal && b.highSignal then false
  else pathLe a.relativePath b.relativePath

def fileOrdWith (pathLe : String → String → Bool) (a b : CollectedFile) : Prop :=
  fileLeWith pathLe a b = true

instance (pathLe : String → String → Bool) : DecidableRel (fileOrdWith pathLe) :=
  fun _ _ => instDecidableEqBool _ _

def strOrd (a b : String) : Prop := lexLe a.data b.data = true

instance : DecidableRel strOrd := fun _ _ => instDecidableEqBool _ _

/-- `collectFiles` of collect.ts (lines 113–141), parametrized by the path
collation `pathLe`.  `Array.prototype.sort` (a stable sort by the given
comparator; comparator-less string sort for `tree`, which is code-unit
order) is embedded as a stable insertion sort. -/
def collectFilesWith (pathLe : String → String → Bool)
    (gitignore : Option (String → Bool)) (subdirectory : Option String)
    (root : List FsEntry) : CollectionResult :=
  let chk := filterCheck gitignore (normalizeSubdir subdirectory)
  let acc := walkEntries chk "" root
  let files := List.insertionSort (fileOrdWith pathLe) acc.files
  { files := files
    tree := List.insertionSort strOrd acc.tree
    excludedCount := acc.excluded
    totalSizeBytes := files.foldl (fun s f => s + f.sizeBytes) 0 }

/-- Byte-order path comparison on `String`, the `lexLe` order on the
underlying characters. -/
def byteLe (x y : String) : Bool := lexLe x.data y.data

/-- `collectFiles` at the byte-order collation instance.  The claims stated
over it (C1, C3, C6) have collation-independent conclusions: membership in
`files` is invariant under the sort's permutation, and the C3 scenario's
ordering is decided by the high-signal flags before the path comparator is
ever consulted.  The ordering claim C9 is settled over `collectFilesWith`
for every admissible collation. -/
def collectFiles (gitignore : Option (String → Bool)) (subdirectory : Option String)
    (root : List FsEntry) : CollectionResult :=
  collectFilesWith byteLe gitignore subdirectory root

-- ─── Walker soundness ───────────────────────────────────────────────────────

mutual

/-- Every file the walker collects from one entry passed the filter check at
its own relative path and size, carries the check's high-signal flag, and
survived the NUL binary check on its first 8192 characters. -/
theorem mem_walkEntry (chk : String → Nat → FilterResult) (parentRel : String) :
    ∀ (e : FsEntry) (f : CollectedFile), f ∈ (walkEntry chk parentRel e).files →
    (chk f.relativePath f.sizeBytes).included = true ∧
    (chk f.relativePath f.sizeBytes).highSignal = f.highSignal ∧
    (f.content.take 8192).contains (Char.ofNat 0) = false
  | .file name size content, f, hf => by
    rw [walkEntry] at hf
    split at hf
    next => simp at hf
    next h =>
      split at hf
      next => simp at hf
      next h2 =>
        simp only [List.mem_singleton] at hf
        subst hf
        exact ⟨by simpa using h, rfl, by simpa using h2⟩
  | .dir name entries, f, hf => by
    rw [walkEntry] at hf
    split at hf
    next hent =>
      simp only [accAppend, List.nil_append] at hf
      exact mem_walkEntries chk (childRel parentRel name) entries f hf
    next hent => simp at hf

theorem mem_walkEntries (chk : String → Nat → FilterResult) (parentRel : String) :
    ∀ (es : List FsEntry) (f : CollectedFile),
    f ∈ (walkEntries chk parentRel es).files →
    (chk f.relativePath f.sizeBytes).included = true ∧
    (chk f.relativePath f.sizeBytes).highSignal = f.highSignal ∧
    (f.content.take 8192).contains (Char.ofNat 0) = false
  | [], f, hf => by
    rw [walkEntries] at hf
    simp at hf
  | e :: rest, f, hf => by
    rw [walkEntries] at hf
    simp only [accAppend, List.mem_append] at hf
    rcases hf with hf | hf
    · exact mem_walkEntry chk parentRel e f hf
    · exact mem_walkEntries chk parentRel rest f hf

end

-- ─── Claim C1: the .env hard block ──────────────────────────────────────────

/-- C1: for every directory tree, gitignore content, subdirectory scope and
size, a filename equal to `.env` or starting with `.env.` is excluded by the
Filter Policy's `check`, and no such file ever appears in the `files` sequence
returned by `collectFiles`. -/
theorem C1_env_hard_block :
    (∀ (gm : Option (String → Bool)) (sd : Option String) (p : String) (size : Nat),
      isHardBlocked (basenameStr p) = true →
      (filterCheck gm sd p size).included = false) ∧
    (∀ (gm : Option (String → Bool)) (sd : Option String) (root : List FsEntry)
      (f : CollectedFile), f ∈ (collectFiles gm sd root).files →
      isHardBlocked (basenameStr f.relativePath) = false) := by
  have hchk : ∀ (gm : Option (String → Bool)) (sd : Option String) (p : String) (size : Nat),
      isHardBlocked (basenameStr p) = true →
      (filterCheck gm sd p size).included = false := by
    intro gm sd p size h
    simp [filterCheck, h]
  refine ⟨hchk, ?_⟩
  intro gm sd root f hf
  simp only [collectFiles, collectFilesWith] at hf
  have hmem : f ∈ (walkEntries (filterCheck gm (normalizeSubdir sd)) "" root).files :=
    (List.perm_insertionSort (fileOrdWith byteLe) _).mem_iff.mp hf
  have hinc := (mem_walkEntries _ _ _ f hmem).1
  by_contra hb
  have hb2 : isHardBlocked (basenameStr f.relativePath) = true := by
    revert hb
    cases isHardBlocked (basenameStr f.relativePath) <;> simp
  rw [hchk gm (normalizeSubdir sd) f.relativePath f.sizeBytes hb2] at hinc
  exact Bool.false_ne_true hinc

/-- A small tree containing `.env` and `.env.local` files alongside a normal
source file, for the C1 witness. -/
def c1tree : List FsEntry :=
  [.file ".env" 50 "SECRET=1".data,
   .dir "sub" [.file ".env.local" 20 "K=V".data, .file "a.ts" 10 "x".data]]

/-- Witness for C1: in `c1tree` the only collected file is `sub/a.ts` (whose
basename is not hard-blocked), and the check rejects `sub/.env.local`
directly. -/
theorem C1_env_hard_block_witness :
    isHardBlocked (basenameStr "sub/a.ts") = false ∧
    (filterCheck none none "sub/.env.local" 20).included = false :=
  ⟨C1_env_hard_block.2 none none c1tree ⟨"sub/a.ts", "x".data, 10, false⟩ (by decide),
   C1_env_hard_block.1 none none "sub/.env.local" 20 (by decide)⟩

-- ─── Claim C3: end-to-end collection scenario ───────────────────────────────

/-- The spec's end-to-end scenario tree: `src/index.ts` (500 bytes),
`node_modules/pkg/index.js` (10 KB), `.env` (50 bytes), `package.json`
(200 bytes). -/
def c3tree : List FsEntry :=
  [.dir "src" [.file "index.ts" 500 "const x = 1".data],
   .dir "node_modules" [.dir "pkg" [.file "index.js" 10240 "module".data]],
   .file ".env" 50 "SECRET=1".data,
   .file "package.json" 200 "\x7b\x7d".data]

/-- Counterexample to C3 as stated: `excludedCount` is 1, not 2 — the
`node_modules` directory is pruned before descent, so the file inside it is
never examined and never counted; only `.env` is counted as excluded. -/
theorem C3_end_to_end_counterexample :
    ¬((collectFiles none none c3tree).excludedCount = 2) := by decide

/-- C3 amended: on the scenario tree, collection returns exactly
`package.json` (high-signal) then `src/index.ts` (not high-signal), in that
order, and `excludedCount` is 1 (the pruned `node_modules` subtree is never
examined, so only `.env` is counted). -/
theorem C3_end_to_end_amended :
    (collectFiles none none c3tree).files =
      [⟨"package.json", "\x7b\x7d".data, 200, true⟩,
       ⟨"src/index.ts", "const x = 1".data, 500, false⟩] ∧
    (collectFiles none none c3tree).excludedCount = 1 := by decide

-- ─── Claim C6: the binary safety net ────────────────────────────────────────

/-- The character class `[\x00-\x08\x0E-\x1F\x7F]` of
`src/lib/input/utils.ts` line 10. -/
def isNonPrintable (c : Char) : Bool :=
  c.toNat ≤ 8 || (14 ≤ c.toNat && c.toNat ≤ 31) || c.toNat = 127

/-- `tryDecodeUtf8` of `src/lib/input/utils.ts` (lines 7–14), on the decoded
content: the input-transport layer's >10% non-printable-density binary check.
The floating comparison `nonPrintable / content.length > 0.1` is embedded as
the exact comparison `10 * nonPrintable > content.length`. -/
def tryDecodeUtf8 (content : Str) : Option Str :=
  if content.length = 0 then some []
  else if 10 * (content.filter isNonPrintable).length > content.length then none
  else some content

/-- A tree with an extension-less binary-looking file (100% non-printable
bytes, no NUL) and a text file with a single NUL in a long printable body
(2.5% non-printable density). -/
def c6tree : List FsEntry :=
  [.file "blob.bin" 5 (List.replicate 5 (Char.ofNat 1)),
   .file "notes.txt" 40 (Char.ofNat 0 :: List.replicate 39 'a')]

/-- Counterexample to C6 as stated: the collector's binary check is not the
>10% non-printable-density test.  `blob.bin` is 100% non-printable (the
density check flags it binary) yet is collected, while `notes.txt` is only
2.5% non-printable (the density check accepts it) yet is dropped and counted
as excluded, because the collector tests for a NUL in the first 8192
characters instead. -/
theorem C6_binary_gate_counterexample :
    tryDecodeUtf8 (List.replicate 5 (Char.ofNat 1)) = none ∧
    tryDecodeUtf8 (Char.ofNat 0 :: List.replicate 39 'a') ≠ none ∧
    (collectFiles none none c6tree).files =
      [⟨"blob.bin", List.replicate 5 (Char.ofNat 1), 5, false⟩] ∧
    (collectFiles none none c6tree).excludedCount = 1 := by decide

/-- C6 amended: for every file that survives the Filter Policy, the collector
drops the file (counting it as excluded) exactly when the first 8192
characters of its decoded content contain a NUL character; the >10%
non-printable-density test lives in the input-transport layer
(`tryDecodeUtf8`), not in the collector. -/
theorem C6_binary_gate_amended :
    (∀ (gm : Option (String → Bool)) (sd : Option String) (root : List FsEntry)
      (f : CollectedFile), f ∈ (collectFiles gm sd root).files →
      (f.content.take 8192).contains (Char.ofNat 0) = false) ∧
    (∀ (gm : Option (String → Bool)) (sd : Option String) (name : String)
      (size : Nat) (content : Str),
      (filterCheck gm (normalizeSubdir sd) name size).included = true →
      ((content.take 8192).contains (Char.ofNat 0) = true →
        (collectFiles gm sd [.file name size content]).files = [] ∧
        (collectFiles gm sd [.file name size content]).excludedCount = 1) ∧
      ((content.take 8192).contains (Char.ofNat 0) = false →
        (collectFiles gm sd [.file name size content]).files =
          [⟨name, content, size,
            (filterCheck gm (normalizeSubdir sd) name size).highSignal⟩] ∧
        (collectFiles gm sd [.file name size content]).excludedCount = 0)) := by
  constructor
  · intro gm sd root f hf
    simp only [collectFiles, collectFilesWith] at hf
    exact (mem_walkEntries _ _ _ f
      ((List.perm_insertionSort (fileOrdWith byteLe) _).mem_iff.mp hf)).2.2
  · intro gm sd name size content hinc
    refine ⟨fun hbin => ?_, fun hbin => ?_⟩
    · have hm : Char.ofNat 0 ∈ content.take 8192 := by simpa using hbin
      simp [collectFiles, collectFilesWith, walkEntries, walkEntry, accAppend, childRel, hinc, hm]
    · have hm : Char.ofNat 0 ∉ content.take 8192 := by simpa using hbin
      simp [collectFiles, collectFilesWith, walkEntries, walkEntry, accAppend, childRel, hinc, hm]

/-- Witness for C6's amended theorem: a NUL-free text file is kept, a file
with a NUL in its leading sample is dropped. -/
theorem C6_binary_gate_amended_witness :
    (collectFiles none none [.file "keep.txt" 2 "ok".data]).files =
      [⟨"keep.txt", "ok".data, 2,
        (filterCheck none (normalizeSubdir none) "keep.txt" 2).highSignal⟩] ∧
    (collectFiles none none [.file "drop.txt" 2 [Char.ofNat 0, 'a']]).files = [] :=
  ⟨((C6_binary_gate_amended.2 none none "keep.txt" 2 "ok".data (by decide)).2
      (by decide)).1,
   ((C6_binary_gate_amended.2 none none "drop.txt" 2 [Char.ofNat 0, 'a']
      (by decide)).1 (by decide)).1⟩

-- ─── Order lemmas for the file comparator ───────────────────────────────────

theorem lexLe_trans : ∀ (a b c : Str),
    lexLe a b = true → lexLe b c = true → lexLe a c = true
  | [], _, _, _, _ => rfl
  | _ :: _, [], _, h₁, _ => absurd h₁ (by simp [lexLe])
  | _ :: _, _ :: _, [], _, h₂ => absurd h₂ (by simp [lexLe])
  | x :: xs, y :: ys, z :: zs, h₁, h₂ => by
    simp only [lexLe] at h₁ h₂ ⊢
    split at h₁
    next hxy =>
      split at h₂
      next hyz => rw [if_pos (by omega)]
      next hyz =>
        split at h₂
        next hzy => exact absurd h₂ (by simp)
        next hzy => rw [if_pos (by omega)]
    next hxy =>
      split at h₁
      next hyx => exact absurd h₁ (by simp)
      next hyx =>
        split at h₂
        next hyz => rw [if_pos (by omega)]
        next hyz =>
          split at h₂
          next hzy => exact absurd h₂ (by simp)
          next hzy =>
            rw [if_neg (by omega), if_neg (by omega)]
            exact lexLe_trans xs ys zs h₁ h₂

theorem lexLe_total : ∀ (a b : Str), lexLe a b = true ∨ lexLe b a = true
  | [], _ => Or.inl rfl
  | _ :: _, [] => Or.inr rfl
  | x :: xs, y :: ys => by
    simp only [lexLe]
    rcases Nat.lt_trichotomy x.toNat y.toNat with h | h | h
    · left; rw [if_pos h]
    · have h1 : ¬ x.toNat < y.toNat := by omega
      have h2 : ¬ y.toNat < x.toNat := by omega
      rw [if_neg h1, if_neg h2, if_neg h2, if_neg h1]
      exact lexLe_total xs ys
    · right; rw [if_pos h]

theorem fileLeWith_trans (pathLe : String → String → Bool)
    (htrans : ∀ x y z, pathLe x y = true → pathLe y z = true → pathLe x z = true)
    (a b c : CollectedFile) (h₁ : fileLeWith pathLe a b = true)
    (h₂ : fileLeWith pathLe b c = true) : fileLeWith pathLe a c = true := by
  unfold fileLeWith at h₁ h₂ ⊢
  cases ha : a.highSignal <;> cases hb : b.highSignal <;> cases hc : c.highSignal <;>
    simp_all <;> exact htrans _ _ _ h₁ h₂

theorem fileLeWith_total (pathLe : String → String → Bool)
    (htotal : ∀ x y, pathLe x y = true ∨ pathLe y x = true)
    (a b : CollectedFile) :
    fileLeWith pathLe a b = true ∨ fileLeWith pathLe b a = true := by
  unfold fileLeWith
  cases ha : a.highSignal <;> cases hb : b.highSignal <;> simp_all

theorem fileLeWith_hs (pathLe : String → String → Bool) (a b : CollectedFile)
    (h : fileLeWith pathLe a b = true) (hb : b.highSignal = true) :
    a.highSignal = true := by
  unfold fileLeWith at h
  cases ha : a.highSignal <;> cases hb2 : b.highSignal <;> simp_all

theorem fileLeWith_path (pathLe : String → String → Bool) (a b : CollectedFile)
    (h : fileLeWith pathLe a b = true) (hsame : a.highSignal = b.highSignal) :
    pathLe a.relativePath b.relativePath = true := by
  unfold fileLeWith at h
  cases ha : a.highSignal <;> cases hb : b.highSignal <;> simp_all

-- ─── Claim C9: output ordering and determinism ──────────────────────────────

/-- A tree whose two surviving files have names in different letter cases —
`LICENSE` and `app.ts` — and neither is high-signal, so their relative order
is decided by the path collation alone. -/
def c9tree : List FsEntry :=
  [.file "LICENSE" 3 "MIT".data, .file "app.ts" 1 "x".data]

def caseTieChar (c : Char) : Char := if c.isLower then 'a' else 'b'

/-- An admissible path collation with the shape of the default-locale
`String.prototype.localeCompare` order (ECMA-402 / ICU root collation) on
ASCII names: case-insensitive at primary strength, lowercase before
uppercase at the case tie-break, realized as byte comparison of a
lowercased-then-case-pattern key.  The repository does not determine which
collation `localeCompare` uses (it is environment data), so this is one
admissible instance — it orders `app.ts` before `LICENSE`, as stock ICU
does — used to exhibit the failure of the claim's "lexicographically"
clause; `C9_output_ordering` itself quantifies over every total transitive
collation. -/
def icuDefaultLe (x y : String) : Bool :=
  lexLe ((lowerStr x).data ++ Char.ofNat 0 :: x.data.map caseTieChar)
        ((lowerStr y).data ++ Char.ofNat 0 :: y.data.map caseTieChar)

theorem icuDefaultLe_total (x y : String) :
    icuDefaultLe x y = true ∨ icuDefaultLe y x = true :=
  lexLe_total _ _

theorem icuDefaultLe_trans (x y z : String) (h₁ : icuDefaultLe x y = true)
    (h₂ : icuDefaultLe y z = true) : icuDefaultLe x z = true :=
  lexLe_trans _ _ _ h₁ h₂

/-- Counterexample to C9 as stated: the program's `files.sort` comparator is
`relativePath.localeCompare` (collect.ts line 130), not a lexicographic
comparison.  Under the admissible default-locale collation `icuDefaultLe`
the collector returns the non-high-signal group as `[app.ts, LICENSE]`,
while lexicographic (byte) order on the relative paths puts `LICENSE`
strictly first — so the output is not "within each group, lexicographically
by relative path". -/
theorem C9_output_ordering_counterexample :
    (collectFilesWith icuDefaultLe none none c9tree).files =
      [⟨"app.ts", "x".data, 1, false⟩, ⟨"LICENSE", "MIT".data, 3, false⟩] ∧
    lexLe ("LICENSE").data ("app.ts").data = true ∧
    lexLe ("app.ts").data ("LICENSE").data = false := by decide

/-- C9 amended: for every total and transitive path collation — the
abstraction of `localeCompare`, whatever collation the runtime provides —
the `files` sequence has all high-signal files before all non-high-signal
files and, within each group, is ordered by that collation (not in general
by raw lexicographic order); and collection is a pure function of the tree,
gitignore, scope and collation, so an identical re-run yields an identical
result (definitionally so in this effect-free embedding). -/
theorem C9_output_ordering (pathLe : String → String → Bool)
    (htotal : ∀ x y, pathLe x y = true ∨ pathLe y x = true)
    (htrans : ∀ x y z, pathLe x y = true → pathLe y z = true → pathLe x z = true)
    (gm : Option (String → Bool)) (sd : Option String) (root : List FsEntry) :
    ((collectFilesWith pathLe gm sd root).files.Pairwise
      (fun a b => b.highSignal = true → a.highSignal = true)) ∧
    ((collectFilesWith pathLe gm sd root).files.Pairwise
      (fun a b => a.highSignal = b.highSignal →
        pathLe a.relativePath b.relativePath = true)) ∧
    collectFilesWith pathLe gm sd root = collectFilesWith pathLe gm sd root := by
  letI : IsTotal CollectedFile (fileOrdWith pathLe) :=
    ⟨fun a b => fileLeWith_total pathLe htotal a b⟩
  letI : IsTrans CollectedFile (fileOrdWith pathLe) :=
    ⟨fun a b c => fileLeWith_trans pathLe htrans a b c⟩
  have hsorted : (collectFilesWith pathLe gm sd root).files.Pairwise
      (fileOrdWith pathLe) := by
    simp only [collectFilesWith]
    exact List.sorted_insertionSort (fileOrdWith pathLe) _
  exact ⟨hsorted.imp (fun h => fileLeWith_hs pathLe _ _ h),
         hsorted.imp (fun h => fileLeWith_path pathLe _ _ h), rfl⟩

/-- Witness for C9's amended theorem at the `icuDefaultLe` collation instance
and the mixed-case tree of the counterexample. -/
theorem C9_output_ordering_witness :
    ((collectFilesWith icuDefaultLe none none c9tree).files.Pairwise
      (fun a b => b.highSignal = true → a.highSignal = true)) ∧
    ((collectFilesWith icuDefaultLe none none c9tree).files.Pairwise
      (fun a b => a.highSignal = b.highSignal →
        icuDefaultLe a.relativePath b.relativePath = true)) ∧
    collectFilesWith icuDefaultLe none none c9tree =
      collectFilesWith icuDefaultLe none none c9tree :=
  C9_output_ordering icuDefaultLe icuDefaultLe_total icuDefaultLe_trans none none c9tree

-- ─── Output Parser (src/lib/scan/parse-output.ts) ───────────────────────────

structure ParsedOutput where
  agentMd : Str
  humanMd : Str
  driftMd : Option Str
  partialFlag : Bool
  warnings : List String
  recoveredSections : List String
  missingSections : List String
deriving DecidableEq, Repr

/-- A `BEGIN`/`END` sentinel pair; `stop` embeds the source field `end`
(a Lean keyword). -/
structure Delimiter where
  start : Str
  stop : Str

/-- `DELIMITERS.agent` of parse-output.ts (lines 19–32). -/
def DELIMITERS_agent : Delimiter :=
  ⟨"===BEGIN_AGENT_OUTPUT===".data, "===END_AGENT_OUTPUT===".data⟩

def DELIMITERS_human : Delimiter :=
  ⟨"===BEGIN_HUMAN_OUTPUT===".data, "===END_HUMAN_OUTPUT===".data⟩

def DELIMITERS_drift : Delimiter :=
  ⟨"===BEGIN_DRIFT_OUTPUT===".data, "===END_DRIFT_OUTPUT===".data⟩

structure SectionExtraction where
  content : Option Str
  truncated : Bool
deriving DecidableEq

/-- `extractSection` of parse-output.ts (lines 42–61).
`text.indexOf(endDelimiter, contentStart)` is embedded as `firstIdx` on the
suffix `text.drop contentStart` (same first match, relative index). -/
def extractSection (text : Str) (startDelimiter endDelimiter : Str) :
    SectionExtraction :=
  match firstIdx startDelimiter text with
  | none => ⟨none, false⟩
  | some startIdx =>
    let contentStart := startIdx + startDelimiter.length
    match firstIdx endDelimiter (text.drop contentStart) with
    | none =>
      let salvaged := jsTrim (text.drop contentStart)
      ⟨if salvaged.isEmpty then none else some salvaged, true⟩
    | some relIdx =>
      ⟨some (jsTrim ((text.drop contentStart).take relIdx)), false⟩

/-- JavaScript string-to-boolean coercion for `string | null` values:
`null` and the empty string are falsy. -/
def falsy : Option Str → Bool
  | none => true
  | some s => s.isEmpty

-- Header-based fallback (parse-output.ts lines 69–106)

def AGENT_DOC : Str := "AS_BUILT_AGENT.md".data

def HUMAN_DOC : Str := "AS_BUILT_HUMAN.md".data

def DRIFT_DOC : Str := "PRD_DRIFT.md".data

/-- Whether the regex fragment `#` + one-or-more whitespace + `name` matches
at the head of `l`. -/
def headerMatchAt (name : Str) : Str → Bool
  | '#' :: rest =>
    match rest with
    | [] => false
    | d :: _ => isJsWs d && name.isPrefixOf (rest.dropWhile isJsWs)
  | _ => false

def findHeaderAux (name : Str) : Str → Nat → Bool → Option Nat
  | [], _, _ => none
  | c :: rest, idx, lineStart =>
    if lineStart && headerMatchAt name (c :: rest) then some idx
    else findHeaderAux name rest (idx + 1) (c = '\n')

/-- `pattern.exec(text).index` for a multiline regex matching `#`,
whitespace, then `name` at the start of the text or of a line: the first such
position. -/
def findHeader (name : Str) (text : Str) : Option Nat :=
  findHeaderAux name text 0 true

inductive DocType where
  | agent
  | human
  | drift
deriving DecidableEq

structure HeaderExtraction where
  agent : Option Str
  human : Option Str
  drift : Option Str
deriving DecidableEq

/-- The slicing loop of `extractByHeaders` (lines 95–99): each found section
runs to the next found section's start, the last one to end-of-text. -/
def assignSlices (text : Str) : List (DocType × Nat) → HeaderExtraction
  | [] => ⟨none, none, none⟩
  | (t, s) :: rest =>
    let nextStart := match rest with | [] => text.length | (_, s2) :: _ => s2
    let content := jsTrim ((text.drop s).take (nextStart - s))
    let acc := assignSlices text rest
    match t with
    | .agent => { acc with agent := some content }
    | .human => { acc with human := some content }
    | .drift => { acc with drift := some content }

/-- `extractByHeaders` of parse-output.ts (lines 69–106): find the expected
top-level headings, sort the found positions (ascending, as the JS comparator
`a.start - b.start` does), and slice into contiguous spans. -/
def extractByHeaders (text : Str) : HeaderExtraction :=
  let agentMatch := findHeader AGENT_DOC text
  let humanMatch := findHeader HUMAN_DOC text
  let driftMatch := findHeader DRIFT_DOC text
  let sections : List (DocType × Nat) :=
    (match agentMatch with | some i => [(DocType.agent, i)] | none => []) ++
    (match humanMatch with | some i => [(DocType.human, i)] | none => []) ++
    (match driftMatch with | some i => [(DocType.drift, i)] | none => [])
  let sorted := List.insertionSort (fun a b => a.2 ≤ b.2) sections
  assignSlices text sorted

-- Warning texts of parse-output.ts, byte for byte

def wAgentTrunc : String :=
  "AS_BUILT_AGENT.md section was truncated (end delimiter missing). Partial content salvaged."

def wHumanTrunc : String :=
  "AS_BUILT_HUMAN.md section was truncated (end delimiter missing). Partial content salvaged."

def wDriftTrunc : String :=
  "PRD_DRIFT.md section was truncated (end delimiter missing). Partial content salvaged."

def wFallback : String :=
  "Delimiter-based parsing failed. Attempting header-based extraction."

def wLastResort : String :=
  "Could not extract individual sections. Using entire response as agent output."

def wAgentMissing : String := "AS_BUILT_AGENT.md section is missing from output."

def wHumanMissing : String := "AS_BUILT_HUMAN.md section is missing from output."

def wDriftMissing : String := "PRD_DRIFT.md section is missing despite PRD being attached."

/-- The metadata block of `parseLlmOutput` (lines 193–233): assemble the
final documents, `partial` flag, warnings and recovered/missing section
lists from the post-fallback document values. -/
def buildParsedOutput (expectDrift anyTruncated : Bool) (warnings : List String)
    (agentMd humanMd driftMd : Option Str) : ParsedOutput :=
  let aF := falsy agentMd
  let hF := falsy humanMd
  let dMiss := expectDrift && falsy driftMd
  let dRec := !(falsy driftMd)
  { agentMd := if aF then [] else agentMd.getD []
    humanMd := if hF then [] else humanMd.getD []
    driftMd := driftMd
    partialFlag := anyTruncated || aF || hF || dMiss
    warnings := warnings ++
      (if aF then [wAgentMissing] else []) ++
      (if hF then [wHumanMissing] else []) ++
      (if dMiss then [wDriftMissing] else [])
    recoveredSections :=
      (if aF then [] else ["AS_BUILT_AGENT.md"]) ++
      (if hF then [] else ["AS_BUILT_HUMAN.md"]) ++
      (if dMiss then [] else if dRec then ["PRD_DRIFT.md"] else [])
    missingSections :=
      (if aF then ["AS_BUILT_AGENT.md"] else []) ++
      (if hF then ["AS_BUILT_HUMAN.md"] else []) ++
      (if dMiss then ["PRD_DRIFT.md"] else []) }

/-- The extraction stages of `parseLlmOutput` (lines 127–191): delimiter
extraction with truncation salvage, the header-based fallback (engaged when
the agent or human document is falsy), and the whole-response last resort.
Returns the post-fallback agent/human/drift values, accumulated warnings,
and the any-truncation flag. -/
def parseStage1 (rawOutput : Str) (expectDrift : Bool) :
    Option Str × Option Str × Option Str × List String × Bool :=
  let agentExtraction :=
    extractSection rawOutput DELIMITERS_agent.start DELIMITERS_agent.stop
  let humanExtraction :=
    extractSection rawOutput DELIMITERS_human.start DELIMITERS_human.stop
  let driftExtraction :=
    if expectDrift then
      extractSection rawOutput DELIMITERS_drift.start DELIMITERS_drift.stop
    else ⟨none, false⟩
  let warnings0 : List String :=
    (if agentExtraction.truncated then [wAgentTrunc] else []) ++
    (if humanExtraction.truncated then [wHumanTrunc] else []) ++
    (if driftExtraction.truncated then [wDriftTrunc] else [])
  let anyTruncated :=
    agentExtraction.truncated || humanExtraction.truncated || driftExtraction.truncated
  let fallbackEngaged := falsy agentExtraction.content || falsy humanExtraction.content
  let headerExtracted :=
    if fallbackEngaged then extractByHeaders rawOutput else ⟨none, none, none⟩
  let warnings1 := warnings0 ++ (if fallbackEngaged then [wFallback] else [])
  let agentMd1 :=
    if fallbackEngaged && falsy agentExtraction.content && !(falsy headerExtracted.agent)
    then headerExtracted.agent else agentExtraction.content
  let humanMd1 :=
    if fallbackEngaged && falsy humanExtraction.content && !(falsy headerExtracted.human)
    then headerExtracted.human else humanExtraction.content
  let driftMd1 :=
    if fallbackEngaged && (expectDrift && falsy driftExtraction.content &&
        !(falsy headerExtracted.drift))
    then headerExtracted.drift else driftExtraction.content
  let lastResort := falsy agentMd1 && falsy humanMd1
  let agentMd2 := if lastResort then some (jsTrim rawOutput) else agentMd1
  let warnings2 := warnings1 ++ (if lastResort then [wLastResort] else [])
  (agentMd2, humanMd1, driftMd1, warnings2, anyTruncated)

/-- `parseLlmOutput` of parse-output.ts (lines 123–234). -/
def parseLlmOutput (rawOutput : Str) (expectDrift : Bool) : ParsedOutput :=
  match parseStage1 rawOutput expectDrift with
  | (a, h, d, ws, tr) => buildParsedOutput expectDrift tr ws a h d

-- ─── Claim C10: parser output invariants ────────────────────────────────────

/-- When no reference document is expected, the drift value reaching the
metadata block is `none`: delimiter extraction is skipped and both fallback
assignments are guarded by `expectDrift`. -/
theorem parseStage1_drift_none (rawOutput : Str) :
    (parseStage1 rawOutput false).2.2.1 = none := by
  simp [parseStage1]

/-- Invariants of the metadata block for arbitrary post-fallback values. -/
theorem buildParsedOutput_invariants (ed tr : Bool) (ws : List String)
    (a h d : Option Str) (hd : ed = false → d = none) :
    (∀ s, s ∈ (buildParsedOutput ed tr ws a h d).recoveredSections →
      s ∉ (buildParsedOutput ed tr ws a h d).missingSections) ∧
    ("AS_BUILT_AGENT.md" ∈ (buildParsedOutput ed tr ws a h d).recoveredSections ↔
      (buildParsedOutput ed tr ws a h d).agentMd ≠ []) ∧
    ("AS_BUILT_AGENT.md" ∈ (buildParsedOutput ed tr ws a h d).missingSections ↔
      (buildParsedOutput ed tr ws a h d).agentMd = []) ∧
    ("AS_BUILT_HUMAN.md" ∈ (buildParsedOutput ed tr ws a h d).recoveredSections ↔
      (buildParsedOutput ed tr ws a h d).humanMd ≠ []) ∧
    ("AS_BUILT_HUMAN.md" ∈ (buildParsedOutput ed tr ws a h d).missingSections ↔
      (buildParsedOutput ed tr ws a h d).humanMd = []) ∧
    ("PRD_DRIFT.md" ∈ (buildParsedOutput ed tr ws a h d).recoveredSections ↔
      (∃ t, (buildParsedOutput ed tr ws a h d).driftMd = some t ∧ t ≠ [])) ∧
    ("PRD_DRIFT.md" ∈ (buildParsedOutput ed tr ws a h d).missingSections ↔
      (ed = true ∧
        ¬∃ t, (buildParsedOutput ed tr ws a h d).driftMd = some t ∧ t ≠ [])) ∧
    (ed = false → (buildParsedOutput ed tr ws a h d).driftMd = none) ∧
    (∀ s, (s ∈ (buildParsedOutput ed tr ws a h d).recoveredSections ∨
           s ∈ (buildParsedOutput ed tr ws a h d).missingSections) →
      s = "AS_BUILT_AGENT.md" ∨ s = "AS_BUILT_HUMAN.md" ∨ s = "PRD_DRIFT.md") ∧
    ("AS_BUILT_AGENT.md" ∈ (buildParsedOutput ed tr ws a h d).recoveredSections ∨
     "AS_BUILT_AGENT.md" ∈ (buildParsedOutput ed tr ws a h d).missingSections) ∧
    ("AS_BUILT_HUMAN.md" ∈ (buildParsedOutput ed tr ws a h d).recoveredSections ∨
     "AS_BUILT_HUMAN.md" ∈ (buildParsedOutput ed tr ws a h d).missingSections) ∧
    (ed = true →
      ("PRD_DRIFT.md" ∈ (buildParsedOutput ed tr ws a h d).recoveredSections ∨
       "PRD_DRIFT.md" ∈ (buildParsedOutput ed tr ws a h d).missingSections)) := by
  rcases a with _ | a <;> rcases h with _ | h <;> rcases d with _ | d <;> cases ed <;>
    first
      | (exfalso; simpa using hd rfl)
      | ((try rcases a with _ | ⟨ca, as⟩) <;> (try rcases h with _ | ⟨ch, hs⟩) <;>
         (try rcases d with _ | ⟨cd, ds⟩) <;>
         simp_all [buildParsedOutput, falsy] <;> tauto)

/-- C10: `parseLlmOutput` always returns (non-null) string documents, its
`recoveredSections` and `missingSections` are disjoint and together contain
exactly the expected document names — `AS_BUILT_AGENT.md`, `AS_BUILT_HUMAN.md`
always, `PRD_DRIFT.md` only when `expectDrift` is true (a drift section can
never be produced otherwise) — and each document is recovered exactly when
its returned content is non-empty. -/
theorem C10_parse_invariants (rawOutput : Str) (expectDrift : Bool) :
    (∀ s, s ∈ (parseLlmOutput rawOutput expectDrift).recoveredSections →
      s ∉ (parseLlmOutput rawOutput expectDrift).missingSections) ∧
    ("AS_BUILT_AGENT.md" ∈ (parseLlmOutput rawOutput expectDrift).recoveredSections ↔
      (parseLlmOutput rawOutput expectDrift).agentMd ≠ []) ∧
    ("AS_BUILT_AGENT.md" ∈ (parseLlmOutput rawOutput expectDrift).missingSections ↔
      (parseLlmOutput rawOutput expectDrift).agentMd = []) ∧
    ("AS_BUILT_HUMAN.md" ∈ (parseLlmOutput rawOutput expectDrift).recoveredSections ↔
      (parseLlmOutput rawOutput expectDrift).humanMd ≠ []) ∧
    ("AS_BUILT_HUMAN.md" ∈ (parseLlmOutput rawOutput expectDrift).missingSections ↔
      (parseLlmOutput rawOutput expectDrift).humanMd = []) ∧
    ("PRD_DRIFT.md" ∈ (parseLlmOutput rawOutput expectDrift).recoveredSections ↔
      (∃ t, (parseLlmOutput rawOutput expectDrift).driftMd = some t ∧ t ≠ [])) ∧
    ("PRD_DRIFT.md" ∈ (parseLlmOutput rawOutput expectDrift).missingSections ↔
      (expectDrift = true ∧
        ¬∃ t, (parseLlmOutput rawOutput expectDrift).driftMd = some t ∧ t ≠ [])) ∧
    (expectDrift = false → (parseLlmOutput rawOutput expectDrift).driftMd = none) ∧
    (∀ s, (s ∈ (parseLlmOutput rawOutput expectDrift).recoveredSections ∨
           s ∈ (parseLlmOutput rawOutput expectDrift).missingSections) →
      s = "AS_BUILT_AGENT.md" ∨ s = "AS_BUILT_HUMAN.md" ∨ s = "PRD_DRIFT.md") ∧
    ("AS_BUILT_AGENT.md" ∈ (parseLlmOutput rawOutput expectDrift).recoveredSections ∨
     "AS_BUILT_AGENT.md" ∈ (parseLlmOutput rawOutput expectDrift).missingSections) ∧
    ("AS_BUILT_HUMAN.md" ∈ (parseLlmOutput rawOutput expectDrift).recoveredSections ∨
     "AS_BUILT_HUMAN.md" ∈ (parseLlmOutput rawOutput expectDrift).missingSections) ∧
    (expectDrift = true →
      ("PRD_DRIFT.md" ∈ (parseLlmOutput rawOutput expectDrift).recoveredSections ∨
       "PRD_DRIFT.md" ∈ (parseLlmOutput rawOutput expectDrift).missingSections)) := by
  have hd0 : expectDrift = false → (parseStage1 rawOutput expectDrift).2.2.1 = none := by
    intro he
    subst he
    exact parseStage1_drift_none rawOutput
  rcases hp : parseStage1 rawOutput expectDrift with ⟨a, h, d, ws, tr⟩
  have hpl : parseLlmOutput rawOutput expectDrift = buildParsedOutput expectDrift tr ws a h d := by
    rw [parseLlmOutput, hp]
  rw [hp] at hd0
  rw [hpl]
  exact buildParsedOutput_invariants expectDrift tr ws a h d hd0

-- ─── Claim C7: engagement of the header-sniffing fallback ───────────────────

/-- A response with correctly delimited agent and human documents followed by
a drift section that has a recognizable heading but no sentinels. -/
def c7raw : Str :=
  ("===BEGIN_AGENT_OUTPUT===\nAgent body\n===END_AGENT_OUTPUT===\n" ++
   "===BEGIN_HUMAN_OUTPUT===\nHuman body\n===END_HUMAN_OUTPUT===\n" ++
   "# PRD_DRIFT.md\nDrift body").data

set_option maxRecDepth 40000 in
/-- Counterexample to C7 as stated: with `expectDrift = true`, the drift
document is still missing after delimiter extraction, and a drift heading is
present that `extractByHeaders` would recover — yet the header-sniffing
fallback is not engaged (its warning line is absent) and the parse returns no
drift document, because the fallback is gated only on the agent or human
document being missing (parse-output.ts line 168). -/
theorem C7_header_fallback_counterexample :
    (parseLlmOutput c7raw true).driftMd = none ∧
    (parseLlmOutput c7raw true).missingSections = ["PRD_DRIFT.md"] ∧
    (extractByHeaders c7raw).drift ≠ none ∧
    wFallback ∉ (parseLlmOutput c7raw true).warnings := by decide

/-- C7 amended: the header-sniffing fallback is engaged (its progress warning
is emitted) whenever the agent or the human document is missing or empty
after delimiter extraction — but only then: when both are present, the drift
document comes from delimiter extraction alone, even when `expectDrift` is
true and the drift section is missing. -/
theorem C7_header_fallback_amended :
    (∀ (raw : Str) (ed : Bool),
      (falsy (extractSection raw DELIMITERS_agent.start DELIMITERS_agent.stop).content ||
       falsy (extractSection raw DELIMITERS_human.start DELIMITERS_human.stop).content) = true →
      wFallback ∈ (parseLlmOutput raw ed).warnings) ∧
    (∀ raw : Str,
      falsy (extractSection raw DELIMITERS_agent.start DELIMITERS_agent.stop).content = false →
      falsy (extractSection raw DELIMITERS_human.start DELIMITERS_human.stop).content = false →
      (parseLlmOutput raw true).driftMd =
        (extractSection raw DELIMITERS_drift.start DELIMITERS_drift.stop).content) := by
  constructor
  · intro raw ed hfb
    simp only [parseLlmOutput, parseStage1, buildParsedOutput]
    simp [hfb]
  · intro raw hfa hfh
    simp only [parseLlmOutput, parseStage1, buildParsedOutput]
    simp [hfa, hfh]

/-- Witness for C7's amended theorem: a sentinel-free response engages the
fallback, while the `c7raw` response (both primary documents present) leaves
the drift document to delimiter extraction, which finds nothing. -/
theorem C7_header_fallback_amended_witness :
    wFallback ∈ (parseLlmOutput ("just some text").data false).warnings ∧
    (parseLlmOutput c7raw true).driftMd =
      (extractSection c7raw DELIMITERS_drift.start DELIMITERS_drift.stop).content :=
  ⟨C7_header_fallback_amended.1 ("just some text").data false (by decide),
   C7_header_fallback_amended.2 c7raw (by decide) (by decide)⟩

-- ─── Lemmas about firstIdx and jsTrim ───────────────────────────────────────

theorem isJsWs_nl : isJsWs '\n' = true := rfl

theorem isPrefixOf_append_self (l m : Str) : l.isPrefixOf (l ++ m) = true := by
  induction l with
  | nil => simp [List.isPrefixOf]
  | cons c cs ih => simp [List.isPrefixOf, ih]

theorem firstIdx_of_isPrefixOf (pat text : Str) (h : pat.isPrefixOf text = true) :
    firstIdx pat text = some 0 := by
  cases text <;> rw [firstIdx] <;> rw [h] <;> simp

theorem firstIdx_none_notPrefixOf (pat l : Str) (h : firstIdx pat l = none) :
    pat.isPrefixOf l = false := by
  cases hp : pat.isPrefixOf l with
  | false => rfl
  | true => rw [firstIdx_of_isPrefixOf pat l hp] at h; simp at h

theorem firstIdx_none_tail (pat : Str) (c : Char) (l : Str)
    (h : firstIdx pat (c :: l) = none) : firstIdx pat l = none := by
  rw [firstIdx] at h
  cases hp : pat.isPrefixOf (c :: l) with
  | true => rw [hp] at h; simp at h
  | false =>
    rw [hp] at h
    simp only [Bool.false_eq_true, if_false] at h
    exact Option.map_eq_none'.mp h

theorem firstIdx_cons_none (pat : Str) (c : Char) (l : Str)
    (h1 : pat.isPrefixOf (c :: l) = false) (h2 : firstIdx pat l = none) :
    firstIdx pat (c :: l) = none := by
  rw [firstIdx, h1, h2]
  simp

theorem not_prefix_cons_of_head_ne (p : Char) (ps : Str) (c : Char) (l : Str)
    (h : p ≠ c) : (p :: ps).isPrefixOf (c :: l) = false := by
  have hb : (p == c) = false := by
    cases hq : p == c with
    | false => rfl
    | true => exact absurd (by simpa using hq) h
  simp [List.isPrefixOf, hb]

/-- A pattern without a newline that matches at the start of `u ++ '\n' :: w`
already matches at the start of `u`. -/
theorem prefix_append_sep (pat : Str) (hnl : ('\n' : Char) ∉ pat) :
    ∀ (u w : Str), pat.isPrefixOf (u ++ '\n' :: w) = true →
    pat.isPrefixOf u = true := by
  induction pat with
  | nil =>
    intro u w _
    simp [List.isPrefixOf]
  | cons p ps ih =>
    intro u w h
    cases u with
    | nil =>
      exfalso
      simp only [List.nil_append, List.isPrefixOf, Bool.and_eq_true, beq_iff_eq] at h
      exact hnl (h.1 ▸ List.mem_cons_self p ps)
    | cons c u2 =>
      simp only [List.cons_append, List.isPrefixOf, Bool.and_eq_true] at h ⊢
      exact ⟨h.1, ih (fun hm => hnl (List.mem_cons_of_mem p hm)) u2 w h.2⟩

/-- First-occurrence search across a newline separator: if a newline-free,
non-empty pattern has no occurrence inside `x`, its first occurrence in
`x ++ '\n' :: y` is its first occurrence in `y`, shifted. -/
theorem firstIdx_append_sep (pat : Str) (hne : pat ≠ [])
    (hnl : ('\n' : Char) ∉ pat) (x : Str) :
    ∀ (y : Str), firstIdx pat x = none →
    firstIdx pat (x ++ '\n' :: y) = (firstIdx pat y).map (· + (x.length + 1)) := by
  induction x with
  | nil =>
    intro y _
    have hp : pat.isPrefixOf ('\n' :: y) = false := by
      cases pat with
      | nil => exact absurd rfl hne
      | cons p ps =>
        exact not_prefix_cons_of_head_ne p ps '\n' y
          (fun hc => hnl (hc ▸ List.mem_cons_self p ps))
    rw [List.nil_append, firstIdx, hp]
    cases firstIdx pat y <;> simp
  | cons c x2 ih =>
    intro y hx
    have h1 : pat.isPrefixOf (c :: x2) = false := firstIdx_none_notPrefixOf pat _ hx
    have h2 : firstIdx pat x2 = none := firstIdx_none_tail pat c x2 hx
    have hp : pat.isPrefixOf ((c :: x2) ++ '\n' :: y) = false := by
      cases hq : pat.isPrefixOf ((c :: x2) ++ '\n' :: y) with
      | false => rfl
      | true =>
        rw [prefix_append_sep pat hnl _ _ hq] at h1
        exact absurd h1 (by simp)
    rw [List.cons_append, firstIdx]
    rw [show (c :: (x2 ++ '\n' :: y)) = ((c :: x2) ++ '\n' :: y) from rfl, hp]
    simp only [Bool.false_eq_true, if_false]
    rw [ih y h2]
    cases firstIdx pat y with
    | none => simp
    | some n =>
      simp [List.length_cons]
      omega

theorem take_append_sep (x y : Str) :
    (x ++ '\n' :: y).take (x.length + 1) = x ++ ['\n'] := by
  rw [List.take_append_eq_append_take]
  simp

theorem trimEnd_append_nl (l : Str) : trimEnd (l ++ ['\n']) = trimEnd l := by
  unfold trimEnd
  rw [List.reverse_append]
  simp only [List.reverse_cons, List.reverse_nil, List.nil_append,
    List.singleton_append, List.dropWhile_cons, isJsWs_nl, if_true]

theorem jsTrim_cons_nl (l : Str) : jsTrim ('\n' :: l) = jsTrim l := by
  unfold jsTrim
  simp only [List.dropWhile_cons, isJsWs_nl, if_true]

theorem jsTrim_append_nl (l : Str) : jsTrim (l ++ ['\n']) = jsTrim l := by
  unfold jsTrim
  rw [List.dropWhile_append]
  by_cases hone : (l.dropWhile isJsWs).isEmpty
  · rw [if_pos hone]
    have h0 : l.dropWhile isJsWs = [] := by simpa [List.isEmpty_iff] using hone
    have h1 : List.dropWhile isJsWs ['\n'] = [] := rfl
    rw [h0, h1]
  · rw [if_neg hone]
    exact trimEnd_append_nl _

theorem jsTrim_wrapped (l : Str) : jsTrim ('\n' :: (l ++ ['\n'])) = jsTrim l := by
  rw [jsTrim_cons_nl, jsTrim_append_nl]

-- ─── Claim C5: delimiter round-trip ─────────────────────────────────────────

/-- A response following the wire format of the delimiter protocol: each
document wrapped in its sentinel pair, every sentinel on its own line
(prompt.ts `OUTPUT_WRAPPER` RULES 1–5). -/
def canonicalResponse (a h : Str) : Str :=
  DELIMITERS_agent.start ++ '\n' ::
    (a ++ '\n' :: (DELIMITERS_agent.stop ++ '\n' ::
      (DELIMITERS_human.start ++ '\n' ::
        (h ++ '\n' :: DELIMITERS_human.stop))))

theorem extract_agent_canonical (a h : Str)
    (ha1 : firstIdx DELIMITERS_agent.stop a = none) :
    extractSection (canonicalResponse a h)
      DELIMITERS_agent.start DELIMITERS_agent.stop = ⟨some (jsTrim a), false⟩ := by
  have hstart : firstIdx DELIMITERS_agent.start (canonicalResponse a h) = some 0 :=
    firstIdx_of_isPrefixOf _ _ (isPrefixOf_append_self _ _)
  have hnl : ('\n' : Char) ∉ DELIMITERS_agent.stop := by decide
  have hne : DELIMITERS_agent.stop ≠ [] := by decide
  have h1 : firstIdx DELIMITERS_agent.stop ('\n' :: a) = none :=
    firstIdx_cons_none _ _ _ rfl ha1
  have hend : firstIdx DELIMITERS_agent.stop
      (('\n' :: a) ++ '\n' :: (DELIMITERS_agent.stop ++ '\n' ::
        (DELIMITERS_human.start ++ '\n' :: (h ++ '\n' :: DELIMITERS_human.stop)))) =
      some (('\n' :: a).length + 1) := by
    rw [firstIdx_append_sep _ hne hnl _ _ h1,
        firstIdx_of_isPrefixOf _ _ (isPrefixOf_append_self _ _)]
    simp
  have hdrop : (canonicalResponse a h).drop (0 + DELIMITERS_agent.start.length) =
      ('\n' :: a) ++ '\n' :: (DELIMITERS_agent.stop ++ '\n' ::
        (DELIMITERS_human.start ++ '\n' :: (h ++ '\n' :: DELIMITERS_human.stop))) := by
    rw [Nat.zero_add]
    exact List.drop_left _ _
  unfold extractSection
  rw [hstart]
  simp only
  rw [hdrop, hend]
  simp only
  rw [take_append_sep]
  rw [show ((('\n' :: a) ++ ['\n']) : Str) = '\n' :: (a ++ ['\n']) from rfl]
  rw [jsTrim_wrapped]

theorem extract_human_canonical (a h : Str)
    (ha2 : firstIdx DELIMITERS_human.start a = none)
    (hh1 : firstIdx DELIMITERS_human.stop h = none) :
    extractSection (canonicalResponse a h)
      DELIMITERS_human.start DELIMITERS_human.stop = ⟨some (jsTrim h), false⟩ := by
  have hnlH : ('\n' : Char) ∉ DELIMITERS_human.start := by decide
  have hneH : DELIMITERS_human.start ≠ [] := by decide
  have hnlE : ('\n' : Char) ∉ DELIMITERS_human.stop := by decide
  have hneE : DELIMITERS_human.stop ≠ [] := by decide
  have hstart : firstIdx DELIMITERS_human.start (canonicalResponse a h) =
      some (a.length + 49) := by
    unfold canonicalResponse
    rw [firstIdx_append_sep _ hneH hnlH _ _ (by decide),
        firstIdx_append_sep _ hneH hnlH _ _ ha2,
        firstIdx_append_sep _ hneH hnlH _ _ (by decide),
        firstIdx_of_isPrefixOf _ _ (isPrefixOf_append_self _ _)]
    simp only [Option.map_some', Option.some.injEq, List.length_cons]
    have hA : DELIMITERS_agent.start.length = 24 := rfl
    have hE : DELIMITERS_agent.stop.length = 22 := rfl
    rw [hA, hE]
    omega
  have hidx : a.length + 49 + DELIMITERS_human.start.length = a.length + 73 := by
    have hH : DELIMITERS_human.start.length = 24 := rfl
    rw [hH]
  have hdrop : (canonicalResponse a h).drop (a.length + 73) =
      ('\n' :: h) ++ '\n' :: DELIMITERS_human.stop := by
    have hre : canonicalResponse a h =
        (DELIMITERS_agent.start ++ '\n' :: (a ++ '\n' ::
          (DELIMITERS_agent.stop ++ '\n' :: DELIMITERS_human.start))) ++
        (('\n' :: h) ++ '\n' :: DELIMITERS_human.stop) := by
      unfold canonicalResponse
      simp [List.append_assoc]
    have hlen : (DELIMITERS_agent.start ++ '\n' :: (a ++ '\n' ::
        (DELIMITERS_agent.stop ++ '\n' :: DELIMITERS_human.start))).length =
        a.length + 73 := by
      have hA : DELIMITERS_agent.start.length = 24 := rfl
      have hE : DELIMITERS_agent.stop.length = 22 := rfl
      have hH : DELIMITERS_human.start.length = 24 := rfl
      simp [List.length_append, hA, hE, hH]
      omega
    rw [hre, List.drop_left' hlen]
  have h1 : firstIdx DELIMITERS_human.stop ('\n' :: h) = none :=
    firstIdx_cons_none _ _ _ rfl hh1
  have hend : firstIdx DELIMITERS_human.stop
      (('\n' :: h) ++ '\n' :: DELIMITERS_human.stop) =
      some (('\n' :: h).length + 1) := by
    rw [firstIdx_append_sep _ hneE hnlE _ _ h1,
        firstIdx_of_isPrefixOf _ _ (by decide)]
    simp
  unfold extractSection
  rw [hstart]
  simp only
  rw [hidx, hdrop, hend]
  simp only
  rw [take_append_sep]
  rw [show ((('\n' :: h) ++ ['\n']) : Str) = '\n' :: (h ++ ['\n']) from rfl]
  rw [jsTrim_wrapped]

-- ─── Prompt assembler output-structure instructions (src/lib/scan/prompt.ts) ─

/-- `OUTPUT_WRAPPER` of prompt.ts (lines 353–379), byte for byte.  The
`assemblePrompt` placeholder substitutions (`{drift_section}`, `{date}`,
`{Project Name}`) never touch the sentinel lines. -/
def OUTPUT_WRAPPER : String :=
  "## CRITICAL: Output Structure Requirements

Your COMPLETE response must use these EXACT delimiters to separate the output documents. This is non-negotiable — the response is parsed programmatically and will fail without these delimiters.

Structure your ENTIRE response exactly like this:

===BEGIN_AGENT_OUTPUT===
(The complete AS_BUILT_AGENT.md document goes here.
Include all sections from §1 through §13.
Do not truncate or summarize — write the full document.)
===END_AGENT_OUTPUT===

===BEGIN_HUMAN_OUTPUT===
(The complete AS_BUILT_HUMAN.md document goes here.
Include all sections from \"What Is This?\" through \"Glossary\".
Do not truncate or summarize — write the full document.)
===END_HUMAN_OUTPUT===

\x7bdrift_section\x7d

RULES:
1. Start your response IMMEDIATELY with ===BEGIN_AGENT_OUTPUT===. No preamble, no \"Here is the output\", no commentary before the first delimiter.
2. Each delimiter must appear on its OWN line with NO surrounding whitespace or markdown formatting.
3. The content between delimiters must be the COMPLETE document — do not refer to other sections or say \"see above\".
4. Do NOT add any text between ===END_AGENT_OUTPUT=== and ===BEGIN_HUMAN_OUTPUT===.
5. Do NOT add any text after the final closing delimiter.
6. Both documents analyze the SAME codebase but serve DIFFERENT audiences and DIFFERENT purposes. They are not summaries of each other."

/-- `DRIFT_WRAPPER_SECTION` of prompt.ts (lines 381–387), byte for byte. -/
def DRIFT_WRAPPER_SECTION : String :=
  "After ===END_HUMAN_OUTPUT===, also include:

===BEGIN_DRIFT_OUTPUT===
(The complete PRD_DRIFT.md document goes here.
Include all sections from Summary through Alignment Score.
Do not truncate or summarize — write the full document.)
===END_DRIFT_OUTPUT==="

-- ─── C5 assembly ────────────────────────────────────────────────────────────

theorem parseStage1_canonical (a h : Str)
    (ha1 : firstIdx DELIMITERS_agent.stop a = none)
    (ha2 : firstIdx DELIMITERS_human.start a = none)
    (hh1 : firstIdx DELIMITERS_human.stop h = none)
    (hta : jsTrim a ≠ []) (hth : jsTrim h ≠ []) :
    parseStage1 (canonicalResponse a h) false =
      (some (jsTrim a), some (jsTrim h), none, [], false) := by
  have hfa : falsy (some (jsTrim a)) = false := by
    simp [falsy, List.isEmpty_iff, hta]
  have hfh : falsy (some (jsTrim h)) = false := by
    simp [falsy, List.isEmpty_iff, hth]
  simp [parseStage1, extract_agent_canonical a h ha1,
        extract_human_canonical a h ha2 hh1, hfa, hfh]

set_option maxRecDepth 100000 in
/-- C5: (round trip) every response that follows the delimiter protocol —
both documents wrapped in their BEGIN/END sentinels on their own lines, the
pattern strings not occurring inside the document bodies, the bodies
non-blank — parses back (with `expectDrift = false`) into exactly those two
documents, with `partial = false` and no warnings; and (wire format) each
sentinel string searched for by the parser occurs byte-identically, at a
line start, in the prompt's output-structure instruction text
(`OUTPUT_WRAPPER`, and `DRIFT_WRAPPER_SECTION` for the drift pair). -/
theorem C5_round_trip_and_sentinels :
    (∀ a h : Str,
      firstIdx DELIMITERS_agent.stop a = none →
      firstIdx DELIMITERS_human.start a = none →
      firstIdx DELIMITERS_human.stop h = none →
      jsTrim a ≠ [] → jsTrim h ≠ [] →
      parseLlmOutput (canonicalResponse a h) false =
        ⟨jsTrim a, jsTrim h, none, false, [],
         ["AS_BUILT_AGENT.md", "AS_BUILT_HUMAN.md"], []⟩) ∧
    firstIdx ('\n' :: DELIMITERS_agent.start) OUTPUT_WRAPPER.data ≠ none ∧
    firstIdx ('\n' :: DELIMITERS_agent.stop) OUTPUT_WRAPPER.data ≠ none ∧
    firstIdx ('\n' :: DELIMITERS_human.start) OUTPUT_WRAPPER.data ≠ none ∧
    firstIdx ('\n' :: DELIMITERS_human.stop) OUTPUT_WRAPPER.data ≠ none ∧
    firstIdx ('\n' :: DELIMITERS_drift.start) DRIFT_WRAPPER_SECTION.data ≠ none ∧
    firstIdx ('\n' :: DELIMITERS_drift.stop) DRIFT_WRAPPER_SECTION.data ≠ none := by
  refine ⟨?_, by decide, by decide, by decide, by decide, by decide, by decide⟩
  intro a h ha1 ha2 hh1 hta hth
  rw [parseLlmOutput, parseStage1_canonical a h ha1 ha2 hh1 hta hth]
  have hfa : falsy (some (jsTrim a)) = false := by
    simp [falsy, List.isEmpty_iff, hta]
  have hfh : falsy (some (jsTrim h)) = false := by
    simp [falsy, List.isEmpty_iff, hth]
  simp [buildParsedOutput, hfa, hfh, falsy, hta, hth]

/-- Witness for C5 at a concrete two-document response. -/
theorem C5_round_trip_witness :
    parseLlmOutput
      (canonicalResponse ("The agent document.").data ("The human document.").data)
      false =
      ⟨("The agent document.").data, ("The human document.").data, none, false, [],
       ["AS_BUILT_AGENT.md", "AS_BUILT_HUMAN.md"], []⟩ :=
  C5_round_trip_and_sentinels.1 ("The agent document.").data ("The human document.").data
    (by decide) (by decide) (by decide) (by decide) (by decide)

-- ─── LLM error taxonomy (src/lib/llm/provider.ts) ───────────────────────────

inductive LlmErrorCode where
  | RATE_LIMIT
  | TIMEOUT
  | SERVER_ERROR
  | AUTH_ERROR
  | INVALID_REQUEST
  | CONTENT_FILTER
  | CONTEXT_LENGTH
  | UNKNOWN
deriving DecidableEq, Repr

def codeString : LlmErrorCode → String
  | .RATE_LIMIT => "RATE_LIMIT"
  | .TIMEOUT => "TIMEOUT"
  | .SERVER_ERROR => "SERVER_ERROR"
  | .AUTH_ERROR => "AUTH_ERROR"
  | .INVALID_REQUEST => "INVALID_REQUEST"
  | .CONTENT_FILTER => "CONTENT_FILTER"
  | .CONTEXT_LENGTH => "CONTEXT_LENGTH"
  | .UNKNOWN => "UNKNOWN"

structure LlmError where
  message : String
  code : LlmErrorCode
  provider : String
  statusCode : Option Nat
  retryable : Bool
deriving DecidableEq, Repr

/-- The `LlmError` constructor of provider.ts (lines 54–66): `retryable` is
derived — true exactly for `RATE_LIMIT`, `TIMEOUT` and `SERVER_ERROR`. -/
def mkLlmError (message : String) (code : LlmErrorCode) (provider : String)
    (statusCode : Option Nat) : LlmError :=
  { message := message, code := code, provider := provider,
    statusCode := statusCode,
    retryable := code == .RATE_LIMIT || code == .TIMEOUT || code == .SERVER_ERROR }

-- ─── Retry orchestrator (src/lib/scan/process.ts lines 43–89) ───────────────

/-- An error reaching `withRetry`'s catch: a classified `LlmError` or any
other thrown value. -/
inductive ScanError where
  | llm (e : LlmError)
  | other (message : String)
deriving DecidableEq, Repr

/-- The outcome of one invocation of the wrapped operation; `withRetry`'s
operation is embedded as a function from the attempt index to its outcome. -/
inductive AttemptOutcome (T : Type) where
  | ok (v : T)
  | fail (e : ScanError)

/-- `err instanceof LlmError && !err.retryable` (process.ts line 67). -/
def failsFast : ScanError → Bool
  | .llm e => !e.retryable
  | .other _ => false

/-- `err instanceof LlmError ? err.code : "UNKNOWN"` (process.ts line 78). -/
def errCode : ScanError → String
  | .llm e => codeString e.code
  | .other _ => "UNKNOWN"

def errMessage : ScanError → String
  | .llm e => e.message
  | .other m => m

/-- One progress-log line emitted by `withRetry`: the `⚠ … Retrying in …s...`
line of process.ts line 79–82, or the `✗ … failed …` line of line 68–71. -/
inductive LogEntry where
  | retryAttempt (label : String) (attemptNumber totalAttempts : Nat)
      (code : String) (delayMs : Nat)
  | nonRetryableFailure (label : String) (code : String) (message : String)
deriving DecidableEq, Repr

def MAX_RETRIES : Nat := 2

def BASE_DELAY_MS : Nat := 2000

/-- The observable outcome of `withRetry`: the returned value or the thrown
error, the log lines written, the backoff delays awaited, and the number of
invocations of the operation. -/
structure RetryResult (T : Type) where
  result : Except ScanError T
  log : List LogEntry
  delays : List Nat
  attemptsUsed : Nat

/-- The `for (attempt = 0; attempt <= retries; attempt++)` loop of `withRetry`
(process.ts lines 60–86), with `rem = retries - attempt` as the structural
fuel, so that `attempt < retries` (line 75) is `rem > 0`. -/
def retryLoop {T : Type} (fn : Nat → AttemptOutcome T) (label : String)
    (retries : Nat) : Nat → Nat → RetryResult T
  | attempt, rem =>
    match fn attempt with
    | .ok v => ⟨.ok v, [], [], 1⟩
    | .fail e =>
      if failsFast e then
        ⟨.error e, [.nonRetryableFailure label (errCode e) (errMessage e)], [], 1⟩
      else
        match rem with
        | 0 => ⟨.error e, [], [], 1⟩
        | rem2 + 1 =>
          let delay := BASE_DELAY_MS * 2 ^ attempt
          let rest := retryLoop fn label retries (attempt + 1) rem2
          ⟨rest.result,
           .retryAttempt label (attempt + 1) (retries + 1) (errCode e) delay :: rest.log,
           delay :: rest.delays,
           rest.attemptsUsed + 1⟩

/-- `withRetry` of process.ts (lines 52–89) at its default attempt cap. -/
def withRetry {T : Type} (fn : Nat → AttemptOutcome T) (label : String) :
    RetryResult T :=
  retryLoop fn label MAX_RETRIES 0 MAX_RETRIES

theorem retryLoop_attemptsUsed_le {T : Type} (fn : Nat → AttemptOutcome T)
    (label : String) (retries : Nat) :
    ∀ (rem attempt : Nat),
    (retryLoop fn label retries attempt rem).attemptsUsed ≤ rem + 1 := by
  intro rem
  induction rem with
  | zero =>
    intro attempt
    rw [retryLoop]
    cases fn attempt with
    | ok v => simp
    | fail e =>
      simp only
      split <;> simp
  | succ rem2 ih =>
    intro attempt
    rw [retryLoop]
    cases fn attempt with
    | ok v => simp
    | fail e =>
      simp only
      split
      · simp
      · simpa using Nat.add_le_add_right (ih (attempt + 1)) 1

-- ─── Claim C4: bounded retry with classification-aware backoff ──────────────

/-- C4: `withRetry` makes at most 3 attempts in total; a non-retryable
classified error at any attempt is rethrown immediately — one failure line,
no retry line, no delay, no further attempt; three retryable (or
unclassified) failures produce exactly two retry log lines with doubling
delays of 2000 ms and 4000 ms and surface the third error unchanged; and an
`LlmError`'s `retryable` flag is true exactly for the `RATE_LIMIT`,
`TIMEOUT` and `SERVER_ERROR` codes. -/
theorem C4_retry_contract :
    (∀ (T : Type) (fn : Nat → AttemptOutcome T) (label : String),
      (withRetry fn label).attemptsUsed ≤ 3) ∧
    (∀ (T : Type) (fn : Nat → AttemptOutcome T) (label : String)
      (attempt rem : Nat) (e : LlmError),
      fn attempt = .fail (.llm e) → e.retryable = false →
      retryLoop fn label MAX_RETRIES attempt rem =
        ⟨.error (.llm e),
         [.nonRetryableFailure label (codeString e.code) e.message], [], 1⟩) ∧
    (∀ (T : Type) (fn : Nat → AttemptOutcome T) (label : String)
      (e0 e1 e2 : ScanError),
      fn 0 = .fail e0 → fn 1 = .fail e1 → fn 2 = .fail e2 →
      failsFast e0 = false → failsFast e1 = false → failsFast e2 = false →
      withRetry fn label =
        ⟨.error e2,
         [.retryAttempt label 1 3 (errCode e0) 2000,
          .retryAttempt label 2 3 (errCode e1) 4000],
         [2000, 4000], 3⟩) ∧
    (∀ (message : String) (code : LlmErrorCode) (provider : String)
      (statusCode : Option Nat),
      (mkLlmError message code provider statusCode).retryable = true ↔
        (code = .RATE_LIMIT ∨ code = .TIMEOUT ∨ code = .SERVER_ERROR)) := by
  refine ⟨?_, ?_, ?_, ?_⟩
  · intro T fn label
    exact retryLoop_attemptsUsed_le fn label MAX_RETRIES MAX_RETRIES 0
  · intro T fn label attempt rem e hfn hr
    rw [retryLoop, hfn]
    simp [failsFast, hr, errCode, errMessage]
  · intro T fn label e0 e1 e2 h0 h1 h2 hf0 hf1 hf2
    unfold withRetry MAX_RETRIES
    rw [retryLoop, h0]
    simp only [hf0, Bool.false_eq_true, if_false]
    rw [retryLoop, h1]
    simp only [hf1, Bool.false_eq_true, if_false]
    rw [retryLoop, h2]
    simp only [hf2, Bool.false_eq_true, if_false]
    simp [BASE_DELAY_MS]
  · intro message code provider statusCode
    cases code <;> simp [mkLlmError]

/-- Witness for C4 at concrete operations: an authentication failure is
rethrown at once with no retry line; three rate-limit failures exhaust the
attempts with delays of 2 s and 4 s. -/
theorem C4_retry_contract_witness :
    (withRetry (T := Nat)
        (fun _ => .fail (.llm (mkLlmError "401" .AUTH_ERROR "gemini" (some 401))))
        "LLM call").attemptsUsed ≤ 3 ∧
    retryLoop (T := Nat)
        (fun _ => .fail (.llm (mkLlmError "401" .AUTH_ERROR "gemini" (some 401))))
        "LLM call" MAX_RETRIES 0 MAX_RETRIES =
      ⟨.error (.llm (mkLlmError "401" .AUTH_ERROR "gemini" (some 401))),
       [.nonRetryableFailure "LLM call" (codeString .AUTH_ERROR) "401"], [], 1⟩ ∧
    withRetry (T := Nat)
        (fun _ => .fail (.llm (mkLlmError "429" .RATE_LIMIT "gemini" (some 429))))
        "LLM call" =
      ⟨.error (.llm (mkLlmError "429" .RATE_LIMIT "gemini" (some 429))),
       [.retryAttempt "LLM call" 1 3 (errCode (.llm (mkLlmError "429" .RATE_LIMIT "gemini" (some 429)))) 2000,
        .retryAttempt "LLM call" 2 3 (errCode (.llm (mkLlmError "429" .RATE_LIMIT "gemini" (some 429)))) 4000],
       [2000, 4000], 3⟩ ∧
    ((mkLlmError "429" .RATE_LIMIT "gemini" (some 429)).retryable = true ↔
      (LlmErrorCode.RATE_LIMIT = .RATE_LIMIT ∨ LlmErrorCode.RATE_LIMIT = .TIMEOUT ∨
       LlmErrorCode.RATE_LIMIT = .SERVER_ERROR)) :=
  ⟨C4_retry_contract.1 Nat _ "LLM call",
   C4_retry_contract.2.1 Nat _ "LLM call" 0 MAX_RETRIES _ rfl rfl,
   C4_retry_contract.2.2.1 Nat _ "LLM call" _ _ _ rfl rfl rfl rfl rfl rfl,
   C4_retry_contract.2.2.2 "429" .RATE_LIMIT "gemini" (some 429)⟩

-- ─── Claim C2: final scan status (src/lib/scan/process.ts) ──────────────────

/-- The scan lifecycle states (`ScanStatus` of `src/lib/types`);
`partialScan` embeds the source's `"partial"`. -/
inductive ScanStatus where
  | pending
  | processing
  | completed
  | partialScan
  | failed
deriving DecidableEq, Repr

/-- Steps 4–6 of `processScan` (process.ts lines 234–303): truncation
detection from the finish reason, parse, the conditional secondary drift
call (its outcome embedded as `driftCall`: `some t` when the dedicated call
returned text `t`, `none` when it threw after its retries — non-fatal), and
the final-status computation `parsed.partial || wasTruncated` (line 302).
Returns the final status together with the drift document that will be
persisted. -/
def computeFinalStatus (llmText : Str) (finishReason : String)
    (expectDrift : Bool) (driftCall : Option Str) : ScanStatus × Option Str :=
  let parsed := parseLlmOutput llmText expectDrift
  let wasTruncated := finishReason == "length"
  let driftMd0 := parsed.driftMd
  let driftMd :=
    if expectDrift && falsy driftMd0 && !parsed.agentMd.isEmpty then
      match driftCall with
      | some t => some (jsTrim t)
      | none => driftMd0
    else driftMd0
  let isPartial := parsed.partialFlag || wasTruncated
  ((if isPartial then ScanStatus.partialScan else ScanStatus.completed), driftMd)

/-- A clean two-document response with no drift section. -/
def c2raw : Str := canonicalResponse ("Agent body").data ("Human body").data

set_option maxRecDepth 100000 in
/-- Counterexample to C2 as stated: a reference document is attached
(`expectDrift = true`), the drift section is the only missing section after
parsing, there is no truncation (`finishReason = "stop"`), and the dedicated
secondary drift call succeeds and yields the drift document — yet the final
status is `partial`, not `completed`: process.ts line 302 computes the status
from `parsed.partial`, which the drift-missing parse already set, and the
secondary pass's success never restores `completed`. -/
theorem C2_final_status_counterexample :
    (parseLlmOutput c2raw true).missingSections = ["PRD_DRIFT.md"] ∧
    (parseLlmOutput c2raw true).recoveredSections =
      ["AS_BUILT_AGENT.md", "AS_BUILT_HUMAN.md"] ∧
    (computeFinalStatus c2raw "stop" true (some ("Drift content").data)).2 =
      some (("Drift content").data) ∧
    (computeFinalStatus c2raw "stop" true (some ("Drift content").data)).1 =
      ScanStatus.partialScan := by decide

/-- C2 amended: the final status is `partial` exactly when the parser flagged
partial or the LLM's finish reason signaled truncation.  A failed secondary
drift pass implies the parser had already flagged partial (the pass only runs
when the expected drift section is missing), and a successful secondary
drift pass does not restore `completed`. -/
theorem C2_final_status_amended (llmText : Str) (finishReason : String)
    (expectDrift : Bool) (driftCall : Option Str) :
    (computeFinalStatus llmText finishReason expectDrift driftCall).1 =
      ScanStatus.partialScan ↔
      ((parseLlmOutput llmText expectDrift).partialFlag = true ∨
        finishReason = "length") := by
  unfold computeFinalStatus
  cases hp : (parseLlmOutput llmText expectDrift).partialFlag <;>
    by_cases hf : finishReason = "length" <;>
    simp [hp, hf]

end AsBuilt
